import Mathlib

/-!
Verification of the optimization-based control module (`control/obc.py`).

This file gives a shallow embedding of the optimal-control-problem engine in
`src/control/obc.py` and proves properties of it.  Vectors are `List ℚ`,
matrices are row-major `List (List ℚ)`.  The external collaborators (the plant
simulator `control.input_output_response` and the SciPy solver) are modelled as
opaque function parameters, exactly as the spec treats them.  Fallible numpy
operations (`np.hstack` on an empty list, the dispatch on an unknown constraint
type, referencing the loop variable of a loop that never ran) are modelled with
`Except String`.
-/

namespace Obc

abbrev Vec := List ℚ
abbrev Mat := List (List ℚ)

/-- `np.dot` of two 1-D vectors (truncating zip, as used on matching sizes). -/
def dotQ (a b : Vec) : ℚ := (List.zipWith (fun p q => p * q) a b).sum

/-- `np.dot(A, v)` for a 2-D matrix `A` and 1-D vector `v`. -/
def matVec (A : Mat) (v : Vec) : Vec := A.map (fun row => dotQ row v)

/-- Column `i` of a row-major matrix, i.e. `M[:, i]` in numpy. -/
def colM (M : Mat) (i : ℕ) : Vec := M.map (fun r => r.getD i 0)

/-- `v.reshape((rows, cols))`: row-major reshape of a flat vector.  numpy
requires `v.length = rows * cols`; the claims below carry that hypothesis. -/
def reshape (v : Vec) (rows cols : ℕ) : Mat :=
  (List.range rows).map (fun j => (List.range cols).map (fun k => v.getD (j * cols + k) 0))

/-- `M.transpose()` for a rectangular row-major matrix. -/
def transposeM (M : Mat) : Mat :=
  (List.range ((M.getD 0 []).length)).map (fun j => colM M j)

/-- `np.hstack` on 2-D blocks: concatenate the rows of two matrices. -/
def hstack2 (A B : Mat) : Mat := List.zipWith (fun r s => r ++ s) A B

/-- `np.zeros((r, c))`. -/
def zerosM (r c : ℕ) : Mat := List.replicate r (List.replicate c 0)

/-- `np.hstack` on a python list of 1-D arrays: raises
`ValueError: need at least one array to concatenate` on an empty list,
otherwise concatenates. -/
def hstackE {α : Type} : List (List α) → Except String (List α)
  | [] => Except.error "need at least one array to concatenate"
  | a :: l => Except.ok ((a :: l).flatten)

/-- Bound entries: numpy floats including `-np.inf` / `np.inf`. -/
inductive ExtQ : Type
  | negInf : ExtQ
  | posInf : ExtQ
  | fin : ℚ → ExtQ
deriving DecidableEq

/-- The constraint "type" tag.  The source uses the class objects
`scipy.optimize.LinearConstraint` / `scipy.optimize.NonlinearConstraint` as
tags and has an `else` branch for any other tag, so the embedding has a third
constructor standing for every tag that is neither of the two. -/
inductive ConstraintType : Type
  | linearConstraint : ConstraintType
  | nonlinearConstraint : ConstraintType
  | unknownConstraint : ConstraintType
deriving DecidableEq

/-- A constraint tuple `(type, fun, lb, ub)` from the source.  The single
dynamically-typed `fun` slot (a matrix for `LinearConstraint` tags, a function
for `NonlinearConstraint` tags) is split into the two typed fields `matA` and
`cfun`; only the field matching `ctype` is ever read by the engine. -/
structure Constraint : Type where
  ctype : ConstraintType
  matA : Mat
  cfun : Vec → Vec
  lb : List ExtQ
  ub : List ExtQ

/-- The plant model, an external collaborator: dimensions, the simulator
`control.input_output_response` (restricted to the state output it is used
for), and the output map `sys._out`. -/
structure System : Type where
  nstates : ℕ
  ninputs : ℕ
  simulate : List ℚ → Mat → Vec → Mat
  out : ℚ → Vec → Vec → Vec

/-- A convex polytope `{x : A x ≤ b}`. -/
structure Polytope : Type where
  A : Mat
  b : Vec

/-- The per-constraint bound lists stacked by the two loops of `__init__`:
for each time point, for each trajectory constraint, append its bound; then
append each terminal constraint's bound once.  `bnd` selects `lb` or `ub`
(the source builds both lists in one pass). -/
def stackedBounds (bnd : Constraint → List ExtQ) (time : List ℚ)
    (traj term : List Constraint) : List (List ExtQ) :=
  (time.map (fun _ => traj.map bnd)).flatten ++ term.map bnd

/-- The `OptimalControlProblem` instance state after `__init__`.
`constraints` models the `sp.optimize.NonlinearConstraint` object: its
evaluator component is the `constraint_function` method itself, so only the
bound data is stored here.  `x` is the mutable current-initial-state field
(`self.x`), unset by `__init__` (modelled as `[]`) and written by
`compute_trajectory`. -/
structure OptimalControlProblem : Type where
  system : System
  time_vector : List ℚ
  integral_cost : Vec → Vec → ℚ
  trajectory_constraints : List Constraint
  terminal_cost : Option (Vec → Vec → ℚ)
  terminal_constraints : List Constraint
  constraint_lb : List ExtQ
  constraint_ub : List ExtQ
  constraints : List ExtQ × List ExtQ
  initial_guess : Vec
  x : Vec

/-- `OptimalControlProblem.__init__`: store the arguments, stack the bounds
(time-point-major, then constraint-list order, terminal bounds last), turn the
stacked lists into 1-D arrays with `np.hstack` (which fails on an empty list),
build the solver constraint object, and store the all-zero initial guess of
length `ninputs * time.size`. -/
def OptimalControlProblem.init (sys : System) (time : List ℚ)
    (integral_cost : Vec → Vec → ℚ) (trajectory_constraints : List Constraint)
    (terminal_cost : Option (Vec → Vec → ℚ)) (terminal_constraints : List Constraint) :
    Except String OptimalControlProblem :=
  match hstackE (stackedBounds (fun c => c.lb) time trajectory_constraints terminal_constraints),
        hstackE (stackedBounds (fun c => c.ub) time trajectory_constraints terminal_constraints) with
  | Except.ok clb, Except.ok cub =>
    Except.ok
      { system := sys
        time_vector := time
        integral_cost := integral_cost
        trajectory_constraints := trajectory_constraints
        terminal_cost := terminal_cost
        terminal_constraints := terminal_constraints
        constraint_lb := clb
        constraint_ub := cub
        constraints := (clb, cub)
        initial_guess := List.replicate (sys.ninputs * time.length) 0
        x := [] }
  | Except.error e, _ => Except.error e
  | Except.ok _, Except.error e => Except.error e

/-- The reshape step shared by `cost_function` and `constraint_function`:
`inputs.reshape((self.system.ninputs, self.time_vector.size))`. -/
def inputMat (self : OptimalControlProblem) (inputs : Vec) : Mat :=
  reshape inputs self.system.ninputs self.time_vector.length

/-- The simulation step shared by `cost_function` and `constraint_function`:
`ct.input_output_response(self.system, self.time_vector, inputs, self.x)`. -/
def stateTraj (self : OptimalControlProblem) (inputs : Vec) : Mat :=
  self.system.simulate self.time_vector (inputMat self inputs) self.x

/-- `np.hstack([states[:, i], inputs[:, i]])`: the concatenated simulated
state and input at the time point of index `i`. -/
def zVec (self : OptimalControlProblem) (inputs : Vec) (i : ℕ) : Vec :=
  colM (stateTraj self inputs) i ++ colM (inputMat self inputs) i

/-- `OptimalControlProblem.cost_function`: simulate, sum the integral cost
over the time points, and add the terminal cost (evaluated at the final
column, `states[:, -1]` and `inputs[:, -1]`) when one is configured.
For an empty time grid the python indexing `[:, -1]` would raise; the claims
about the terminal branch assume a non-empty grid. -/
def OptimalControlProblem.cost_function (self : OptimalControlProblem) (inputs : Vec) : ℚ :=
  let N := self.time_vector.length
  let run := ((List.range N).map
    (fun i => self.integral_cost (colM (stateTraj self inputs) i) (colM (inputMat self inputs) i))).sum
  match self.terminal_cost with
  | none => run
  | some tc => run + tc (colM (stateTraj self inputs) (N - 1)) (colM (inputMat self inputs) (N - 1))

/-- The `if type == ... / elif ... / else raise TypeError` dispatch in the body
of the constraint loops. -/
def constraintValue1 (c : Constraint) (z : Vec) : Except String Vec :=
  match c.ctype with
  | ConstraintType.linearConstraint => Except.ok (matVec c.matA z)
  | ConstraintType.nonlinearConstraint => Except.ok (c.cfun z)
  | ConstraintType.unknownConstraint => Except.error "unknown constraint type"

/-- The value a known-kind constraint contributes at the concatenated
(state, input) vector `z`: `A · z` for a linear descriptor, `f z` for a
nonlinear one (junk for the unreachable unknown tag). -/
def constraintValue (c : Constraint) (z : Vec) : Vec :=
  match c.ctype with
  | ConstraintType.linearConstraint => matVec c.matA z
  | ConstraintType.nonlinearConstraint => c.cfun z
  | ConstraintType.unknownConstraint => []

/-- The inner loop `for constraint in constraints: ... value.append(...)`,
evaluated at one fixed concatenated (state, input) vector. -/
def evalConstraintList : List Constraint → Vec → Except String (List Vec)
  | [], _ => Except.ok []
  | c :: rest, z =>
    match constraintValue1 c z with
    | Except.error e => Except.error e
    | Except.ok v =>
      match evalConstraintList rest z with
      | Except.error e => Except.error e
      | Except.ok vs => Except.ok (v :: vs)

/-- The outer loop `for i, time in enumerate(self.time_vector)` over the list
of time-point indices, running the inner constraint loop at each index. -/
def evalTimePoints (cons : List Constraint) (z : ℕ → Vec) : List ℕ → Except String (List Vec)
  | [] => Except.ok []
  | i :: rest =>
    match evalConstraintList cons (z i) with
    | Except.error e => Except.error e
    | Except.ok vs =>
      match evalTimePoints cons z rest with
      | Except.error e => Except.error e
      | Except.ok vs2 => Except.ok (vs ++ vs2)

/-- `OptimalControlProblem.constraint_function`: simulate, evaluate every
trajectory constraint at every time point, then evaluate the terminal
constraints reusing the trajectory loop's last index `i` (which is `N - 1`
when the grid is non-empty, and an unbound python local when it is empty and
a terminal constraint exists), and `np.hstack` the collected values.
`terminalEval` is the terminal loop `for constraint in self.terminal_constraints`. -/
def terminalEval (self : OptimalControlProblem) (inputs : Vec) : Except String (List Vec) :=
  match self.terminal_constraints with
  | [] => Except.ok []
  | _ :: _ =>
    if self.time_vector.length = 0 then
      Except.error "local variable referenced before assignment"
    else evalConstraintList self.terminal_constraints (zVec self inputs (self.time_vector.length - 1))

def OptimalControlProblem.constraint_function (self : OptimalControlProblem) (inputs : Vec) :
    Except String Vec :=
  match evalTimePoints self.trajectory_constraints (zVec self inputs)
      (List.range self.time_vector.length) with
  | Except.error e => Except.error e
  | Except.ok trajVals =>
    match terminalEval self inputs with
    | Except.error e => Except.error e
    | Except.ok termVals => hstackE (trajVals ++ termVals)

/-- The flat list of trajectory-constraint values in stacking order:
time-point-major, then constraint-list order. -/
def trajectoryStackedValues (self : OptimalControlProblem) (inputs : Vec) : Vec :=
  ((List.range self.time_vector.length).map
    (fun i => (self.trajectory_constraints.map
      (fun c => constraintValue c (zVec self inputs i))).flatten)).flatten

/-- The flat list of terminal-constraint values: each terminal constraint
evaluated once, at the final time point. -/
def terminalStackedValues (self : OptimalControlProblem) (inputs : Vec) : Vec :=
  (self.terminal_constraints.map
    (fun c => constraintValue c (zVec self inputs (self.time_vector.length - 1)))).flatten

/-- Modelled from the spec: `_process_time_response` is imported from
`control/timeresp.py`, which is not among the sources here.  Per the spec it
is the time-response packager, "a pure formatting concern" for which "inputs
pass through unchanged", so it is modelled as the identity packaging of the
time grid and the input trajectory (the state trajectory is `None` on the
path exercised here since `return_x` is unset). -/
def processTimeResponse (time : List ℚ) (inputs : Mat) : List ℚ × Mat := (time, inputs)

/-- The result object of `scipy.optimize.minimize`. -/
structure OptimizeResult : Type where
  success : Bool
  message : String
  x : Vec

/-- The external NLP solver collaborator: objective, initial guess, and the
bound data of the stored constraint object (the evaluator component of that
object is the `constraint_function` method of the calling problem). -/
abbrev Solver := (Vec → ℚ) → Vec → (List ExtQ × List ExtQ) → OptimizeResult

/-- `OptimalControlProblem.compute_trajectory`: store the initial state in
`self.x`, run the solver; on failure warn with the solver's message and
return the `None` sentinel; on success reshape the optimal point and package
it.  The first component of the result is the updated instance state, the
second the list of emitted warnings, the third the python return value. -/
def OptimalControlProblem.compute_trajectory (self : OptimalControlProblem)
    (minimize : Solver) (x : Vec) :
    OptimalControlProblem × List String × Option (List ℚ × Mat) :=
  let self1 : OptimalControlProblem := { self with x := x }
  let res := minimize self1.cost_function self1.initial_guess self1.constraints
  if res.success then
    (self1, [],
      some (processTimeResponse self1.time_vector
        (reshape res.x self1.system.ninputs self1.time_vector.length)))
  else
    (self1, [res.message], none)

/-- `OptimalControlProblem.mpc`: `_, inputs = self.compute_trajectory(x)`,
then `return None if inputs is None else inputs.transpose()[0]`.  When
`compute_trajectory` returns the `None` sentinel, the tuple unpacking raises
`TypeError: cannot unpack non-iterable NoneType object`, modelled as the
`Except.error` below; on the success path `inputs` is never `None`, so the
`None` guard of the source is dead and the first row of the transpose (the
first input column) is returned. -/
def OptimalControlProblem.mpc (self : OptimalControlProblem) (minimize : Solver) (x : Vec) :
    OptimalControlProblem × Except String Vec :=
  let r := self.compute_trajectory minimize x
  match r.2.2 with
  | none => (r.1, Except.error "cannot unpack non-iterable NoneType object")
  | some (_t, inputs) => (r.1, Except.ok ((transposeM inputs).getD 0 []))

/-- `OptimalControlProblem.__call__`: `return self.mpc(x, squeeze=squeeze)`. -/
def OptimalControlProblem.call (self : OptimalControlProblem) (minimize : Solver) (x : Vec) :
    OptimalControlProblem × Except String Vec :=
  self.mpc minimize x

/-- `state_poly_constraint(sys, polytope)`: a `LinearConstraint`-tagged tuple
with matrix `np.hstack([A, zeros((A.shape[0], sys.ninputs))])`, lower bound
`np.full(A.shape[0], -inf)`, upper bound `b`. -/
def state_poly_constraint (sys : System) (p : Polytope) : Constraint :=
  { ctype := ConstraintType.linearConstraint
    matA := hstack2 p.A (zerosM p.A.length sys.ninputs)
    cfun := fun _ => []
    lb := List.replicate p.A.length ExtQ.negInf
    ub := p.b.map ExtQ.fin }

/-- `input_poly_constraint(sys, polytope)`: a `LinearConstraint`-tagged tuple
with matrix `np.hstack([zeros((A.shape[0], sys.nstates)), A])`, lower bound
`np.full(A.shape[0], -inf)`, upper bound `b`. -/
def input_poly_constraint (sys : System) (p : Polytope) : Constraint :=
  { ctype := ConstraintType.linearConstraint
    matA := hstack2 (zerosM p.A.length sys.nstates) p.A
    cfun := fun _ => []
    lb := List.replicate p.A.length ExtQ.negInf
    ub := p.b.map ExtQ.fin }

/-- `output_poly_constraint(sys, polytope)`: a `NonlinearConstraint`-tagged
tuple whose evaluator splits the concatenated vector into state and input,
applies the plant output map at time `0`, then the polytope matrix; bounds
`(-inf, b)` as for the other factories. -/
def output_poly_constraint (sys : System) (p : Polytope) : Constraint :=
  { ctype := ConstraintType.nonlinearConstraint
    matA := []
    cfun := fun z => matVec p.A (sys.out 0 (z.take sys.nstates) (z.drop sys.nstates))
    lb := List.replicate p.A.length ExtQ.negInf
    ub := p.b.map ExtQ.fin }

/-- `quadratic_cost(sys, Q, R)`: the running cost `x Q x + u R u`. -/
def quadratic_cost (Q R : Mat) : Vec → Vec → ℚ :=
  fun x u => dotQ x (matVec Q x) + dotQ u (matVec R u)

/-! ## Helper lemmas about the evaluation loops -/

lemma hstackE_of_ne_nil {α : Type} (l : List (List α)) (h : l ≠ []) :
    hstackE l = Except.ok l.flatten := by
  cases l with
  | nil => exact absurd rfl h
  | cons a t => rfl

lemma evalConstraintList_ok (cons : List Constraint) (z : Vec)
    (h : ∀ c ∈ cons, c.ctype ≠ ConstraintType.unknownConstraint) :
    evalConstraintList cons z = Except.ok (cons.map (fun c => constraintValue c z)) := by
  induction cons with
  | nil => rfl
  | cons c rest ih =>
    have hc := h c (List.mem_cons_self c rest)
    have hrest : ∀ d ∈ rest, d.ctype ≠ ConstraintType.unknownConstraint :=
      fun d hd => h d (List.mem_cons_of_mem c hd)
    cases hct : c.ctype with
    | unknownConstraint => exact absurd hct hc
    | linearConstraint =>
      simp [evalConstraintList, constraintValue1, constraintValue, hct, ih hrest]
    | nonlinearConstraint =>
      simp [evalConstraintList, constraintValue1, constraintValue, hct, ih hrest]

lemma evalTimePoints_ok (cons : List Constraint) (z : ℕ → Vec) (l : List ℕ)
    (h : ∀ c ∈ cons, c.ctype ≠ ConstraintType.unknownConstraint) :
    evalTimePoints cons z l =
      Except.ok ((l.map (fun i => cons.map (fun c => constraintValue c (z i)))).flatten) := by
  induction l with
  | nil => rfl
  | cons i rest ih =>
    simp [evalTimePoints, evalConstraintList_ok cons (z i) h, ih]

lemma evalConstraintList_unknown (cons : List Constraint) (z : Vec)
    (h : ∃ c ∈ cons, c.ctype = ConstraintType.unknownConstraint) :
    evalConstraintList cons z = Except.error "unknown constraint type" := by
  induction cons with
  | nil => simp at h
  | cons c rest ih =>
    rcases h with ⟨d, hd, hdu⟩
    rcases List.mem_cons.mp hd with hd1 | hd2
    · subst hd1
      simp [evalConstraintList, constraintValue1, hdu]
    · cases hct : c.ctype with
      | unknownConstraint => simp [evalConstraintList, constraintValue1, hct]
      | linearConstraint =>
        simp [evalConstraintList, constraintValue1, hct, ih ⟨d, hd2, hdu⟩]
      | nonlinearConstraint =>
        simp [evalConstraintList, constraintValue1, hct, ih ⟨d, hd2, hdu⟩]

lemma evalTimePoints_unknown (cons : List Constraint) (z : ℕ → Vec) (i : ℕ) (rest : List ℕ)
    (h : ∃ c ∈ cons, c.ctype = ConstraintType.unknownConstraint) :
    evalTimePoints cons z (i :: rest) = Except.error "unknown constraint type" := by
  simp [evalTimePoints, evalConstraintList_unknown cons (z i) h]

lemma flatten_flatten {β : Type} (L : List (List (List β))) :
    L.flatten.flatten = (L.map List.flatten).flatten := by
  induction L with
  | nil => rfl
  | cons a t ih => simp [List.flatten_append, ih]

lemma flatten_map_const_nil {α β : Type} (l : List α) :
    (l.map (fun _ => ([] : List β))).flatten = [] := by
  induction l with
  | nil => rfl
  | cons a t ih => simp [ih]

lemma flatten_range_map_ne_nil {β : Type} (N : ℕ) (hN : N ≠ 0) (f : ℕ → List β)
    (hf : f 0 ≠ []) : ((List.range N).map f).flatten ≠ [] := by
  cases N with
  | zero => exact absurd rfl hN
  | succ m =>
    rw [List.range_succ_eq_map]
    intro hc
    simp only [List.map_cons, List.flatten_cons, List.append_eq_nil] at hc
    exact hf hc.1

/-- Field characterization of a successfully constructed problem. -/
lemma init_ok_fields (sys : System) (time : List ℚ) (icost : Vec → Vec → ℚ)
    (traj : List Constraint) (tcost : Option (Vec → Vec → ℚ)) (term : List Constraint)
    (self : OptimalControlProblem)
    (h : OptimalControlProblem.init sys time icost traj tcost term = Except.ok self) :
    self = { system := sys
             time_vector := time
             integral_cost := icost
             trajectory_constraints := traj
             terminal_cost := tcost
             terminal_constraints := term
             constraint_lb := (stackedBounds (fun c => c.lb) time traj term).flatten
             constraint_ub := (stackedBounds (fun c => c.ub) time traj term).flatten
             constraints := ((stackedBounds (fun c => c.lb) time traj term).flatten,
                             (stackedBounds (fun c => c.ub) time traj term).flatten)
             initial_guess := List.replicate (sys.ninputs * time.length) 0
             x := [] }
      ∧ stackedBounds (fun c => c.lb) time traj term ≠ [] := by
  cases hlb : stackedBounds (fun c => c.lb) time traj term with
  | nil =>
    rw [OptimalControlProblem.init, hlb] at h
    simp [hstackE] at h
  | cons a t =>
    cases hub : stackedBounds (fun c => c.ub) time traj term with
    | nil =>
      rw [OptimalControlProblem.init, hlb, hub] at h
      simp [hstackE] at h
    | cons b s =>
      rw [OptimalControlProblem.init, hlb, hub] at h
      simp only [hstackE, Except.ok.injEq] at h
      refine ⟨?_, by simp [hlb]⟩
      exact h.symm

/-- The central evaluation lemma: on a non-empty time grid, with every
constraint kind known and at least one constraint present,
`constraint_function` returns the trajectory values (time-point-major, then
constraint-list order) followed by the terminal values at the final point. -/
lemma constraint_function_eval (self : OptimalControlProblem) (inputs : Vec)
    (hN : self.time_vector ≠ [])
    (hK : ∀ c ∈ self.trajectory_constraints ++ self.terminal_constraints,
      c.ctype ≠ ConstraintType.unknownConstraint)
    (hC : self.trajectory_constraints ≠ [] ∨ self.terminal_constraints ≠ []) :
    self.constraint_function inputs =
      Except.ok (trajectoryStackedValues self inputs ++ terminalStackedValues self inputs) := by
  have hKt : ∀ c ∈ self.trajectory_constraints, c.ctype ≠ ConstraintType.unknownConstraint :=
    fun c hc => hK c (List.mem_append.mpr (Or.inl hc))
  have hKe : ∀ c ∈ self.terminal_constraints, c.ctype ≠ ConstraintType.unknownConstraint :=
    fun c hc => hK c (List.mem_append.mpr (Or.inr hc))
  have hN0 : self.time_vector.length ≠ 0 := by
    simpa [List.length_eq_zero] using hN
  have hTermEval : terminalEval self inputs =
      Except.ok (self.terminal_constraints.map
        (fun c => constraintValue c (zVec self inputs (self.time_vector.length - 1)))) := by
    rw [terminalEval]
    cases hterm : self.terminal_constraints with
    | nil => rfl
    | cons c rest =>
      simp only [if_neg hN0, evalConstraintList_ok _ _ (hterm ▸ hKe)]
  have hTrajVals := evalTimePoints_ok self.trajectory_constraints (zVec self inputs)
    (List.range self.time_vector.length) hKt
  have hne : ((List.range self.time_vector.length).map
        (fun i => self.trajectory_constraints.map
          (fun c => constraintValue c (zVec self inputs i)))).flatten
      ++ self.terminal_constraints.map
        (fun c => constraintValue c (zVec self inputs (self.time_vector.length - 1))) ≠ [] := by
    rcases hC with h1 | h2
    · intro hc2
      rcases List.append_eq_nil.mp hc2 with ⟨ha, _⟩
      refine flatten_range_map_ne_nil self.time_vector.length hN0 _ ?_ ha
      simpa [List.map_eq_nil_iff] using h1
    · intro hc2
      rcases List.append_eq_nil.mp hc2 with ⟨_, hb⟩
      exact h2 (List.map_eq_nil_iff.mp hb)
  simp only [OptimalControlProblem.constraint_function, hTrajVals, hTermEval,
    hstackE_of_ne_nil _ hne, trajectoryStackedValues, terminalStackedValues]
  simp [List.flatten_append, flatten_flatten, List.map_map, Function.comp_def]

/-! ## Length lemmas for the bound/value alignment -/

lemma flatten_replicate_length_sum {β : Type} (n : ℕ) (L : List (List β)) :
    ((List.replicate n L).flatten.map List.length).sum = n * (L.map List.length).sum := by
  induction n with
  | zero => simp
  | succ m ih =>
    rw [List.replicate_succ, List.flatten_cons, List.map_append, List.sum_append, ih,
      Nat.succ_mul]
    ring

lemma trajectoryStackedValues_length (self : OptimalControlProblem) (inputs : Vec)
    (hdim : ∀ c ∈ self.trajectory_constraints,
      ∀ z, (constraintValue c z).length = c.lb.length) :
    (trajectoryStackedValues self inputs).length =
      self.time_vector.length *
        ((self.trajectory_constraints.map (fun c => c.lb.length)).sum) := by
  rw [trajectoryStackedValues, List.length_flatten, List.map_map]
  have h1 : ∀ i ∈ List.range self.time_vector.length,
      (List.length ∘ fun i => (self.trajectory_constraints.map
        (fun c => constraintValue c (zVec self inputs i))).flatten) i
      = (fun _ : ℕ =>
          (self.trajectory_constraints.map (fun c => c.lb.length)).sum) i := by
    intro i _
    simp only [Function.comp_apply, List.length_flatten, List.map_map]
    congr 1
    exact List.map_congr_left (fun c hc => by simp [hdim c hc (zVec self inputs i)])
  rw [List.map_congr_left h1, List.map_const', List.sum_replicate, List.length_range,
    smul_eq_mul]

lemma terminalStackedValues_length (self : OptimalControlProblem) (inputs : Vec)
    (hdim : ∀ c ∈ self.terminal_constraints,
      ∀ z, (constraintValue c z).length = c.lb.length) :
    (terminalStackedValues self inputs).length =
      (self.terminal_constraints.map (fun c => c.lb.length)).sum := by
  rw [terminalStackedValues, List.length_flatten, List.map_map]
  congr 1
  exact List.map_congr_left (fun c hc => by
    simp [hdim c hc (zVec self inputs (self.time_vector.length - 1))])

lemma stackedBounds_flatten_length (bnd : Constraint → List ExtQ) (time : List ℚ)
    (traj term : List Constraint) :
    ((stackedBounds bnd time traj term).flatten).length =
      time.length * ((traj.map (fun c => (bnd c).length)).sum)
        + (term.map (fun c => (bnd c).length)).sum := by
  rw [stackedBounds, List.flatten_append, List.length_append, List.length_flatten,
    List.length_flatten, List.map_const', flatten_replicate_length_sum, List.map_map,
    List.map_map]
  rfl

lemma list_range_map_sum (N : ℕ) (f : ℕ → ℚ) :
    ((List.range N).map f).sum = ∑ i ∈ Finset.range N, f i := by
  induction N with
  | zero => rfl
  | succ m ih =>
    rw [List.range_succ, List.map_append, List.sum_append, Finset.sum_range_succ, ih]
    simp

lemma transpose_reshape_row0 (v : Vec) (r c : ℕ) (hc : c ≠ 0) :
    (transposeM (reshape v r c)).getD 0 [] = colM (reshape v r c) 0 := by
  cases r with
  | zero => simp [reshape, transposeM, colM]
  | succ m =>
    rw [transposeM]
    have hlen : ((reshape v (m + 1) c).getD 0 []).length = c := by
      rw [reshape, List.range_succ_eq_map]
      simp
    rw [hlen]
    cases c with
    | zero => exact absurd rfl hc
    | succ k =>
      rw [List.range_succ_eq_map]
      simp

lemma zipWith_append_replicate_right {β : Type} (l : List (List β)) (z : List β) :
    List.zipWith (fun r s => r ++ s) l (List.replicate l.length z) =
      l.map (fun r => r ++ z) := by
  induction l with
  | nil => rfl
  | cons a t ih => simp only [List.length_cons, List.replicate_succ, List.zipWith_cons_cons,
      List.map_cons, ih]

lemma zipWith_append_replicate_left {β : Type} (l : List (List β)) (z : List β) :
    List.zipWith (fun r s => r ++ s) (List.replicate l.length z) l =
      l.map (fun r => z ++ r) := by
  induction l with
  | nil => rfl
  | cons a t ih => simp only [List.length_cons, List.replicate_succ, List.zipWith_cons_cons,
      List.map_cons, ih]

/-! ## Concrete instances used by the witnesses -/

/-- A one-state, one-input plant whose simulator holds the state constant at
the initial state (the simulator is an external collaborator, so any concrete
function will do for witnesses). -/
def sysD : System :=
  { nstates := 1
    ninputs := 1
    simulate := fun time _U x0 => [time.map (fun _ => x0.getD 0 0)]
    out := fun _ s _ => s }

def timeD : List ℚ := [0, 1]

def costD : Vec → Vec → ℚ := fun x u => dotQ x x + dotQ u u

def tcostD : Vec → Vec → ℚ := fun x _ => dotQ x x

/-- A linear trajectory constraint `x + u ≤ 5`. -/
def conD : Constraint :=
  { ctype := ConstraintType.linearConstraint
    matA := [[1, 1]]
    cfun := fun z => z
    lb := [ExtQ.negInf]
    ub := [ExtQ.fin 5] }

/-- A nonlinear terminal constraint `0 ≤ x + u ≤ 1`. -/
def conT : Constraint :=
  { ctype := ConstraintType.nonlinearConstraint
    matA := []
    cfun := fun z => [z.sum]
    lb := [ExtQ.fin 0]
    ub := [ExtQ.fin 1] }

/-- A descriptor whose tag is neither `LinearConstraint` nor
`NonlinearConstraint`. -/
def conU : Constraint :=
  { ctype := ConstraintType.unknownConstraint
    matA := []
    cfun := fun _ => []
    lb := [ExtQ.fin 0]
    ub := [ExtQ.fin 0] }

def probD : OptimalControlProblem :=
  { system := sysD
    time_vector := timeD
    integral_cost := costD
    trajectory_constraints := [conD]
    terminal_cost := none
    terminal_constraints := []
    constraint_lb := [ExtQ.negInf, ExtQ.negInf]
    constraint_ub := [ExtQ.fin 5, ExtQ.fin 5]
    constraints := ([ExtQ.negInf, ExtQ.negInf], [ExtQ.fin 5, ExtQ.fin 5])
    initial_guess := [0, 0]
    x := [] }

def probE : OptimalControlProblem :=
  { system := sysD
    time_vector := timeD
    integral_cost := costD
    trajectory_constraints := [conD]
    terminal_cost := some tcostD
    terminal_constraints := [conT]
    constraint_lb := [ExtQ.negInf, ExtQ.negInf, ExtQ.fin 0]
    constraint_ub := [ExtQ.fin 5, ExtQ.fin 5, ExtQ.fin 1]
    constraints := ([ExtQ.negInf, ExtQ.negInf, ExtQ.fin 0],
                    [ExtQ.fin 5, ExtQ.fin 5, ExtQ.fin 1])
    initial_guess := [0, 0]
    x := [] }

def probU : OptimalControlProblem := { probD with trajectory_constraints := [conU] }

/-- A solver reporting non-convergence. -/
def failSolver : Solver :=
  fun _ _ _ => { success := false, message := "Iteration limit reached", x := [] }

/-- A solver reporting success with optimal point `[3, 4]`. -/
def okSolver : Solver :=
  fun _ _ _ => { success := true, message := "Optimization terminated successfully", x := [3, 4] }

/-! ## Claim theorems -/

/-- Claim C2: at construction, the stacked lower-bound vector is the flattening of
the per-constraint lower bounds `[c1.lb, ..., cm.lb]` repeated once per time
point (time-major, constraint-list order) followed by the terminal lower
bounds appended exactly once; same for the upper bounds. -/
theorem stacked_bounds_time_major (sys : System) (time : List ℚ)
    (icost : Vec → Vec → ℚ) (traj : List Constraint) (tcost : Option (Vec → Vec → ℚ))
    (term : List Constraint) (self : OptimalControlProblem)
    (hself : OptimalControlProblem.init sys time icost traj tcost term = Except.ok self) :
    self.constraint_lb =
      ((List.replicate time.length (traj.map (fun c => c.lb))).flatten
        ++ term.map (fun c => c.lb)).flatten
    ∧ self.constraint_ub =
      ((List.replicate time.length (traj.map (fun c => c.ub))).flatten
        ++ term.map (fun c => c.ub)).flatten := by
  rcases init_ok_fields sys time icost traj tcost term self hself with ⟨hf, _⟩
  subst hf
  constructor
  · simp [stackedBounds, List.map_const']
  · simp [stackedBounds, List.map_const']

/-- Witness for C2 at a concrete problem. -/
theorem stacked_bounds_time_major_witness :
    (OptimalControlProblem.init sysD timeD costD [conD] (some tcostD) [conT]
      = Except.ok probE)
    ∧ probE.constraint_lb =
      ((List.replicate timeD.length ([conD].map (fun c => c.lb))).flatten
        ++ [conT].map (fun c => c.lb)).flatten
    ∧ probE.constraint_ub =
      ((List.replicate timeD.length ([conD].map (fun c => c.ub))).flatten
        ++ [conT].map (fun c => c.ub)).flatten :=
  ⟨rfl,
   (stacked_bounds_time_major sysD timeD costD [conD] (some tcostD) [conT] probE rfl).1,
   (stacked_bounds_time_major sysD timeD costD [conD] (some tcostD) [conT] probE rfl).2⟩

/-- Claim C3 (code bug): when the solver reports failure, `compute_trajectory` does
warn with the solver message and return the `None` sentinel, as claimed — but
`mpc` at the same state does not return a "no control" sentinel: its tuple
unpacking `_, inputs = self.compute_trajectory(x)` hits the bare `None` and
raises `TypeError`, so the `return None if inputs is None` branch on the next
line of the source (clear evidence of the intended sentinel) is unreachable.
This theorem evaluates the embedded code at the failing input. -/
theorem solver_failure_mpc_raises :
    (probD.compute_trajectory failSolver [1]).2.2 = none
    ∧ (probD.compute_trajectory failSolver [1]).2.1 = ["Iteration limit reached"]
    ∧ (probD.mpc failSolver [1]).2 =
        Except.error "cannot unpack non-iterable NoneType object" :=
  ⟨rfl, rfl, rfl⟩

/-- Claim C7: `state_poly_constraint` builds a `Linear` descriptor with matrix
`[A | 0]` (zero block of width `ninputs`), lower bound `-∞` elementwise and
upper bound `b`; `input_poly_constraint` builds the symmetric `[0 | A]`
descriptor with the same bound policy. -/
theorem poly_constraint_factories (sys : System) (p : Polytope) :
    (state_poly_constraint sys p).ctype = ConstraintType.linearConstraint
    ∧ (state_poly_constraint sys p).matA =
        p.A.map (fun row => row ++ List.replicate sys.ninputs 0)
    ∧ (state_poly_constraint sys p).lb = List.replicate p.A.length ExtQ.negInf
    ∧ (state_poly_constraint sys p).ub = p.b.map ExtQ.fin
    ∧ (input_poly_constraint sys p).ctype = ConstraintType.linearConstraint
    ∧ (input_poly_constraint sys p).matA =
        p.A.map (fun row => List.replicate sys.nstates 0 ++ row)
    ∧ (input_poly_constraint sys p).lb = List.replicate p.A.length ExtQ.negInf
    ∧ (input_poly_constraint sys p).ub = p.b.map ExtQ.fin := by
  refine ⟨rfl, ?_, rfl, rfl, rfl, ?_, rfl, rfl⟩
  · show hstack2 p.A (zerosM p.A.length sys.ninputs) = _
    rw [hstack2, zerosM, zipWith_append_replicate_right]
  · show hstack2 (zerosM p.A.length sys.nstates) p.A = _
    rw [hstack2, zerosM, zipWith_append_replicate_left]

/-- Every `compute_trajectory` call leaves every instance field unchanged
except `x`, which it sets to its argument. -/
lemma compute_trajectory_state (self : OptimalControlProblem) (m : Solver) (x : Vec) :
    (self.compute_trajectory m x).1 = { self with x := x } := by
  simp only [OptimalControlProblem.compute_trajectory]
  split
  · rfl
  · rfl

/-- Claim C9: the stacked bounds, the solver constraint object and the all-zero
initial guess of length `ninputs * N` are fixed at construction, and the only
instance field a solve mutates is the current-initial-state `x`, set by
`compute_trajectory` just before the solver call (in the embedding,
`cost_function` and `constraint_function` are pure: they read `self.x` and
return a value without producing an updated instance). -/
theorem construction_once_solve_mutates_only_x (sys : System) (time : List ℚ)
    (icost : Vec → Vec → ℚ) (traj : List Constraint) (tcost : Option (Vec → Vec → ℚ))
    (term : List Constraint) (self : OptimalControlProblem) (m : Solver) (x : Vec)
    (hself : OptimalControlProblem.init sys time icost traj tcost term = Except.ok self) :
    self.initial_guess = List.replicate (sys.ninputs * time.length) 0
    ∧ self.constraints = (self.constraint_lb, self.constraint_ub)
    ∧ (self.compute_trajectory m x).1 = { self with x := x }
    ∧ (self.mpc m x).1 = { self with x := x } := by
  rcases init_ok_fields sys time icost traj tcost term self hself with ⟨hf, _⟩
  refine ⟨by rw [hf], by rw [hf], compute_trajectory_state self m x, ?_⟩
  rcases hr : (self.compute_trajectory m x).2.2 with _ | ⟨t, U⟩
  · simp only [OptimalControlProblem.mpc, hr]
    exact compute_trajectory_state self m x
  · simp only [OptimalControlProblem.mpc, hr]
    exact compute_trajectory_state self m x

/-- Witness for C9 at a concrete problem and solver. -/
theorem construction_once_solve_mutates_only_x_witness :
    (OptimalControlProblem.init sysD timeD costD [conD] none [] = Except.ok probD)
    ∧ probD.initial_guess = List.replicate (sysD.ninputs * timeD.length) 0
    ∧ probD.constraints = (probD.constraint_lb, probD.constraint_ub)
    ∧ (probD.compute_trajectory failSolver [2]).1 = { probD with x := [2] }
    ∧ (probD.mpc failSolver [2]).1 = { probD with x := [2] } :=
  ⟨rfl,
   (construction_once_solve_mutates_only_x sysD timeD costD [conD] none [] probD
     failSolver [2] rfl).1,
   (construction_once_solve_mutates_only_x sysD timeD costD [conD] none [] probD
     failSolver [2] rfl).2.1,
   (construction_once_solve_mutates_only_x sysD timeD costD [conD] none [] probD
     failSolver [2] rfl).2.2.1,
   (construction_once_solve_mutates_only_x sysD timeD costD [conD] none [] probD
     failSolver [2] rfl).2.2.2⟩

/-- Claim C6: whenever the optimization succeeds, `mpc` returns exactly the first
time sample (first column) of the input trajectory that `compute_trajectory`
returned, discarding the rest; and calling the problem instance itself
(`__call__`) is the same operation as calling `mpc`. -/
theorem mpc_first_input_sample (self : OptimalControlProblem) (m : Solver) (x : Vec) :
    (∀ t U, self.time_vector ≠ [] →
      (self.compute_trajectory m x).2.2 = some (t, U) →
      (self.mpc m x).2 = Except.ok (colM U 0))
    ∧ self.call m x = self.mpc m x := by
  constructor
  · intro t U hN hsome
    have hN0 : self.time_vector.length ≠ 0 := by
      simpa [List.length_eq_zero] using hN
    have hU : U = reshape
        (m (OptimalControlProblem.cost_function { self with x := x })
          self.initial_guess self.constraints).x
        self.system.ninputs self.time_vector.length := by
      by_cases hs : (m (OptimalControlProblem.cost_function { self with x := x })
          self.initial_guess self.constraints).success
      · simp only [OptimalControlProblem.compute_trajectory] at hsome
        rw [if_pos hs] at hsome
        simp only [processTimeResponse, Option.some.injEq, Prod.mk.injEq] at hsome
        exact hsome.2.symm
      · simp only [OptimalControlProblem.compute_trajectory] at hsome
        rw [if_neg hs] at hsome
        simp at hsome
    simp only [OptimalControlProblem.mpc, hsome]
    rw [hU, transpose_reshape_row0 _ _ _ hN0]
  · rfl

/-- Witness for C6 at a concrete problem and a succeeding solver. -/
theorem mpc_first_input_sample_witness :
    (probD.time_vector ≠ [])
    ∧ ((probD.compute_trajectory okSolver [1]).2.2 = some (timeD, reshape [3, 4] 1 2))
    ∧ ((probD.mpc okSolver [1]).2 = Except.ok (colM (reshape [3, 4] 1 2) 0))
    ∧ probD.call okSolver [1] = probD.mpc okSolver [1] :=
  ⟨by decide, rfl,
   (mpc_first_input_sample probD okSolver [1]).1 timeD (reshape [3, 4] 1 2)
     (by decide) rfl,
   (mpc_first_input_sample probD okSolver [1]).2⟩

/-- Claim C1: for a constructed problem (with the solve-time state `x0` installed in
the mutable field, as `compute_trajectory` does), `constraint_function`
returns exactly the concatenation, in the stacking order fixed at
construction (time-point-major, then constraint-list order, terminal
constraints last), of the per-point constraint values — a `Linear` descriptor
contributing `A · [x_k; u_k]` and a `Nonlinear` descriptor its evaluator at
`[x_k; u_k]` (see `constraintValue`) — and the returned vector is aligned
element for element with the stacked bound vectors. -/
theorem constraint_function_matches_stacking (sys : System) (time : List ℚ)
    (icost : Vec → Vec → ℚ) (traj : List Constraint) (tcost : Option (Vec → Vec → ℚ))
    (term : List Constraint) (self0 : OptimalControlProblem) (x0 inputs : Vec)
    (hself : OptimalControlProblem.init sys time icost traj tcost term = Except.ok self0)
    (hN : time ≠ [])
    (hK : ∀ c ∈ traj ++ term, c.ctype ≠ ConstraintType.unknownConstraint)
    (hdim : ∀ c ∈ traj ++ term, ∀ z, (constraintValue c z).length = c.lb.length)
    (hdimu : ∀ c ∈ traj ++ term, c.ub.length = c.lb.length) :
    (OptimalControlProblem.constraint_function { self0 with x := x0 } inputs =
      Except.ok (trajectoryStackedValues { self0 with x := x0 } inputs
        ++ terminalStackedValues { self0 with x := x0 } inputs))
    ∧ (trajectoryStackedValues { self0 with x := x0 } inputs
        ++ terminalStackedValues { self0 with x := x0 } inputs).length
        = self0.constraint_lb.length
    ∧ (trajectoryStackedValues { self0 with x := x0 } inputs
        ++ terminalStackedValues { self0 with x := x0 } inputs).length
        = self0.constraint_ub.length := by
  rcases init_ok_fields sys time icost traj tcost term self0 hself with ⟨hf, hnenil⟩
  subst hf
  have hKt : ∀ c ∈ traj, c.ctype ≠ ConstraintType.unknownConstraint :=
    fun c hc => hK c (List.mem_append.mpr (Or.inl hc))
  have hKe : ∀ c ∈ term, c.ctype ≠ ConstraintType.unknownConstraint :=
    fun c hc => hK c (List.mem_append.mpr (Or.inr hc))
  have hdt : ∀ c ∈ traj, ∀ z, (constraintValue c z).length = c.lb.length :=
    fun c hc => hdim c (List.mem_append.mpr (Or.inl hc))
  have hde : ∀ c ∈ term, ∀ z, (constraintValue c z).length = c.lb.length :=
    fun c hc => hdim c (List.mem_append.mpr (Or.inr hc))
  have hC : traj ≠ [] ∨ term ≠ [] := by
    by_contra hcon
    push_neg at hcon
    rcases hcon with ⟨h1, h2⟩
    subst h1
    subst h2
    exact hnenil (by simp [stackedBounds, flatten_map_const_nil])
  refine ⟨constraint_function_eval _ inputs hN hK hC, ?_, ?_⟩
  · rw [List.length_append, trajectoryStackedValues_length _ inputs hdt,
      terminalStackedValues_length _ inputs hde, stackedBounds_flatten_length]
  · rw [List.length_append, trajectoryStackedValues_length _ inputs hdt,
      terminalStackedValues_length _ inputs hde, stackedBounds_flatten_length]
    have e1 : (traj.map (fun c => c.ub.length)) = (traj.map (fun c => c.lb.length)) :=
      List.map_congr_left (fun c hc => hdimu c (List.mem_append.mpr (Or.inl hc)))
    have e2 : (term.map (fun c => c.ub.length)) = (term.map (fun c => c.lb.length)) :=
      List.map_congr_left (fun c hc => hdimu c (List.mem_append.mpr (Or.inr hc)))
    rw [e1, e2]

/-- Witness for C1 at a concrete problem, solve-time state `[1]` and flat
input vector `[1, 2]`. -/
theorem constraint_function_matches_stacking_witness :
    (OptimalControlProblem.init sysD timeD costD [conD] (some tcostD) [conT]
      = Except.ok probE)
    ∧ (OptimalControlProblem.constraint_function { probE with x := [1] } [1, 2] =
        Except.ok (trajectoryStackedValues { probE with x := [1] } [1, 2]
          ++ terminalStackedValues { probE with x := [1] } [1, 2]))
    ∧ (trajectoryStackedValues { probE with x := [1] } [1, 2]
        ++ terminalStackedValues { probE with x := [1] } [1, 2]).length
        = probE.constraint_lb.length :=
  ⟨rfl,
   (constraint_function_matches_stacking sysD timeD costD [conD] (some tcostD) [conT]
     probE [1] [1, 2] rfl (by decide)
     (by
       intro c hc
       simp only [List.cons_append, List.nil_append, List.mem_cons,
         List.not_mem_nil, or_false] at hc
       rcases hc with h | h
       · subst h; decide
       · subst h; decide)
     (by
       intro c hc
       simp only [List.cons_append, List.nil_append, List.mem_cons,
         List.not_mem_nil, or_false] at hc
       rcases hc with h | h
       · subst h; intro z; rfl
       · subst h; intro z; rfl)
     (by
       intro c hc
       simp only [List.cons_append, List.nil_append, List.mem_cons,
         List.not_mem_nil, or_false] at hc
       rcases hc with h | h
       · subst h; rfl
       · subst h; rfl)).1,
   (constraint_function_matches_stacking sysD timeD costD [conD] (some tcostD) [conT]
     probE [1] [1, 2] rfl (by decide)
     (by
       intro c hc
       simp only [List.cons_append, List.nil_append, List.mem_cons,
         List.not_mem_nil, or_false] at hc
       rcases hc with h | h
       · subst h; decide
       · subst h; decide)
     (by
       intro c hc
       simp only [List.cons_append, List.nil_append, List.mem_cons,
         List.not_mem_nil, or_false] at hc
       rcases hc with h | h
       · subst h; intro z; rfl
       · subst h; intro z; rfl)
     (by
       intro c hc
       simp only [List.cons_append, List.nil_append, List.mem_cons,
         List.not_mem_nil, or_false] at hc
       rcases hc with h | h
       · subst h; rfl
       · subst h; rfl)).2.1⟩

/-- Claim C4: with only a running cost, `cost_function` is exactly the sum over the
N time points of the running cost at the simulated state and input of that
point; with a terminal cost configured it exceeds that sum by exactly the
terminal cost at the final simulated state and final input. -/
theorem cost_function_additivity (selfA selfB : OptimalControlProblem)
    (inputsA inputsB : Vec) (tc : Vec → Vec → ℚ)
    (hA : selfA.terminal_cost = none)
    (hB : selfB.terminal_cost = some tc)
    (_hNB : selfB.time_vector ≠ []) :
    selfA.cost_function inputsA =
      (∑ i ∈ Finset.range selfA.time_vector.length,
        selfA.integral_cost (colM (stateTraj selfA inputsA) i) (colM (inputMat selfA inputsA) i))
    ∧ selfB.cost_function inputsB =
      (∑ i ∈ Finset.range selfB.time_vector.length,
        selfB.integral_cost (colM (stateTraj selfB inputsB) i) (colM (inputMat selfB inputsB) i))
      + tc (colM (stateTraj selfB inputsB) (selfB.time_vector.length - 1))
          (colM (inputMat selfB inputsB) (selfB.time_vector.length - 1)) := by
  constructor
  · simp only [OptimalControlProblem.cost_function, hA, list_range_map_sum]
  · simp only [OptimalControlProblem.cost_function, hB, list_range_map_sum]

/-- Witness for C4 at concrete problems with and without terminal cost. -/
theorem cost_function_additivity_witness :
    (probD.terminal_cost = none)
    ∧ (probE.terminal_cost = some tcostD)
    ∧ (probE.time_vector ≠ [])
    ∧ probD.cost_function [1, 2] =
      (∑ i ∈ Finset.range probD.time_vector.length,
        probD.integral_cost (colM (stateTraj probD [1, 2]) i) (colM (inputMat probD [1, 2]) i))
    ∧ probE.cost_function [1, 2] =
      (∑ i ∈ Finset.range probE.time_vector.length,
        probE.integral_cost (colM (stateTraj probE [1, 2]) i) (colM (inputMat probE [1, 2]) i))
      + tcostD (colM (stateTraj probE [1, 2]) (probE.time_vector.length - 1))
          (colM (inputMat probE [1, 2]) (probE.time_vector.length - 1)) :=
  ⟨rfl, rfl, by decide,
   (cost_function_additivity probD probE [1, 2] [1, 2] tcostD rfl rfl (by decide)).1,
   (cost_function_additivity probD probE [1, 2] [1, 2] tcostD rfl rfl (by decide)).2⟩

/-- Claim C5: on a non-empty time grid, the terminal constraints are each evaluated
exactly once, against the concatenated (state, input) vector at the final
time point (index `N - 1`), and their values come after all the
trajectory-constraint values. -/
theorem terminal_constraints_final_point (self : OptimalControlProblem) (inputs : Vec)
    (hN : self.time_vector ≠ [])
    (hK : ∀ c ∈ self.trajectory_constraints ++ self.terminal_constraints,
      c.ctype ≠ ConstraintType.unknownConstraint)
    (hC : self.trajectory_constraints ≠ [] ∨ self.terminal_constraints ≠ []) :
    self.constraint_function inputs =
      Except.ok (trajectoryStackedValues self inputs
        ++ (self.terminal_constraints.map
            (fun c => constraintValue c
              (zVec self inputs (self.time_vector.length - 1)))).flatten) := by
  have h := constraint_function_eval self inputs hN hK hC
  rw [terminalStackedValues] at h
  exact h

/-- Witness for C5 at a concrete problem with a terminal constraint. -/
theorem terminal_constraints_final_point_witness :
    (probE.time_vector ≠ [])
    ∧ probE.constraint_function [1, 2] =
      Except.ok (trajectoryStackedValues probE [1, 2]
        ++ (probE.terminal_constraints.map
            (fun c => constraintValue c
              (zVec probE [1, 2] (probE.time_vector.length - 1)))).flatten) :=
  ⟨by decide,
   terminal_constraints_final_point probE [1, 2] (by decide)
     (by
       intro c hc
       simp only [probE, List.cons_append, List.nil_append, List.mem_cons,
         List.not_mem_nil, or_false] at hc
       rcases hc with h | h
       · subst h; decide
       · subst h; decide)
     (Or.inr (List.cons_ne_nil conT []))⟩

/-- Claim C8: `constraint_function` fails with the unknown-constraint-kind error as
soon as it reaches a descriptor whose tag is neither `Linear` nor
`Nonlinear`; when every descriptor has a known tag — which is the case for
every descriptor built by the three provided factories — that error is
unreachable. -/
theorem unknown_constraint_kind_error (selfA selfB : OptimalControlProblem)
    (inputsA inputsB : Vec)
    (hNA : selfA.time_vector ≠ [])
    (hUA : ∃ c ∈ selfA.trajectory_constraints ++ selfA.terminal_constraints,
      c.ctype = ConstraintType.unknownConstraint)
    (hKB : ∀ c ∈ selfB.trajectory_constraints ++ selfB.terminal_constraints,
      c.ctype ≠ ConstraintType.unknownConstraint) :
    selfA.constraint_function inputsA = Except.error "unknown constraint type"
    ∧ selfB.constraint_function inputsB ≠ Except.error "unknown constraint type"
    ∧ (∀ (sys : System) (p : Polytope),
        (state_poly_constraint sys p).ctype ≠ ConstraintType.unknownConstraint
        ∧ (input_poly_constraint sys p).ctype ≠ ConstraintType.unknownConstraint
        ∧ (output_poly_constraint sys p).ctype ≠ ConstraintType.unknownConstraint) := by
  have hNA0 : selfA.time_vector.length ≠ 0 := by
    simpa [List.length_eq_zero] using hNA
  refine ⟨?_, ?_, ?_⟩
  · rcases hUA with ⟨c, hc, hcu⟩
    by_cases htraj : ∃ d ∈ selfA.trajectory_constraints,
        d.ctype = ConstraintType.unknownConstraint
    · obtain ⟨m, hm⟩ := Nat.exists_eq_succ_of_ne_zero hNA0
      rw [OptimalControlProblem.constraint_function, hm, List.range_succ_eq_map,
        evalTimePoints_unknown _ _ _ _ htraj]
    · push_neg at htraj
      have hcterm : c ∈ selfA.terminal_constraints := by
        rcases List.mem_append.mp hc with h1 | h2
        · exact absurd hcu (htraj c h1)
        · exact h2
      have hTermErr : terminalEval selfA inputsA =
          Except.error "unknown constraint type" := by
        rw [terminalEval]
        cases hte : selfA.terminal_constraints with
        | nil => exact absurd (hte ▸ hcterm) (List.not_mem_nil c)
        | cons d rest =>
          simp only [if_neg hNA0,
            evalConstraintList_unknown _ _ ⟨c, hte ▸ hcterm, hcu⟩]
      rw [OptimalControlProblem.constraint_function,
        evalTimePoints_ok _ _ _ htraj, hTermErr]
  · have hKt : ∀ c ∈ selfB.trajectory_constraints,
        c.ctype ≠ ConstraintType.unknownConstraint :=
      fun c hc => hKB c (List.mem_append.mpr (Or.inl hc))
    have hKe : ∀ c ∈ selfB.terminal_constraints,
        c.ctype ≠ ConstraintType.unknownConstraint :=
      fun c hc => hKB c (List.mem_append.mpr (Or.inr hc))
    have hTE : terminalEval selfB inputsB =
          Except.error "local variable referenced before assignment"
        ∨ ∃ vals, terminalEval selfB inputsB = Except.ok vals := by
      rw [terminalEval]
      cases hte : selfB.terminal_constraints with
      | nil => exact Or.inr ⟨[], rfl⟩
      | cons d rest =>
        by_cases h0 : selfB.time_vector.length = 0
        · exact Or.inl (by simp [h0])
        · refine Or.inr ⟨(d :: rest).map
            (fun c => constraintValue c
              (zVec selfB inputsB (selfB.time_vector.length - 1))), ?_⟩
          simp only [if_neg h0, evalConstraintList_ok _ _ (hte ▸ hKe)]
    rcases hTE with h | ⟨vals, h⟩
    · simp only [OptimalControlProblem.constraint_function,
        evalTimePoints_ok _ _ _ hKt, h]
      intro hcon
      rw [Except.error.injEq] at hcon
      exact absurd hcon (by decide)
    · simp only [OptimalControlProblem.constraint_function,
        evalTimePoints_ok _ _ _ hKt, h]
      cases hl : ((List.range selfB.time_vector.length).map
          (fun i => selfB.trajectory_constraints.map
            (fun c => constraintValue c (zVec selfB inputsB i)))).flatten ++ vals with
      | nil =>
        simp only [hstackE]
        intro hcon
        rw [Except.error.injEq] at hcon
        exact absurd hcon (by decide)
      | cons a t =>
        simp only [hstackE]
        intro hcon
        exact Except.noConfusion hcon
  · intro sys p
    refine ⟨?_, ?_, ?_⟩
    · intro h
      exact ConstraintType.noConfusion h
    · intro h
      exact ConstraintType.noConfusion h
    · intro h
      exact ConstraintType.noConfusion h

/-- Witness for C8: a problem holding an unknown-tagged descriptor errors,
the factory-built problem does not. -/
theorem unknown_constraint_kind_error_witness :
    (probU.time_vector ≠ [])
    ∧ probU.constraint_function [1, 2] = Except.error "unknown constraint type"
    ∧ probD.constraint_function [1, 2] ≠ Except.error "unknown constraint type" :=
  ⟨by decide,
   (unknown_constraint_kind_error probU probD [1, 2] [1, 2] (by decide)
     ⟨conU, List.mem_append.mpr (Or.inl (List.mem_cons_self conU [])), rfl⟩
     (by
       intro c hc
       simp only [probD, List.cons_append, List.nil_append, List.mem_cons,
         List.not_mem_nil, or_false] at hc
       subst hc; decide)).1,
   (unknown_constraint_kind_error probU probD [1, 2] [1, 2] (by decide)
     ⟨conU, List.mem_append.mpr (Or.inl (List.mem_cons_self conU [])), rfl⟩
     (by
       intro c hc
       simp only [probD, List.cons_append, List.nil_append, List.mem_cons,
         List.not_mem_nil, or_false] at hc
       subst hc; decide)).2.1⟩

/-- Claim C10: with both constraint lists empty (their default values), `__init__`
reaches `np.hstack([])`, which raises; an unconstrained problem can never be
constructed, whatever the plant, time grid and costs are. -/
theorem unconstrained_construction_fails (sys : System) (time : List ℚ)
    (icost : Vec → Vec → ℚ) (tcost : Option (Vec → Vec → ℚ)) :
    OptimalControlProblem.init sys time icost [] tcost [] =
      Except.error "need at least one array to concatenate" := by
  rw [OptimalControlProblem.init]
  have h : stackedBounds (fun c => c.lb) time [] [] = [] := by
    simp [stackedBounds, flatten_map_const_nil]
  rw [h]
  rfl

end Obc
